import Mathlib

/-!
# Verification of the F5 pool snapshot parser and comparison engine

This file gives a shallow embedding of `pool_parsing.py` (parser for
`ltm pool` snapshot dumps plus the diff / unchanged comparison engine)
and proves or refutes the specified properties of that code.

Modelling conventions:
* Python `str` values are Lean `String`s; character-level work is done on
  `List Char` (Python 3 strings are sequences of Unicode code points).
* Python dicts are association lists (`Dict`), looked up by the first
  matching key; insertion replaces an existing binding in place and
  otherwise appends, which preserves key uniqueness of dicts built from
  empty and models Python dict update order.
* Python values produced by the parser form the tagged union
  `AttributeValue` (int / float / str).  Python `==` across these types
  (where `1 == 1.0` is `True` and no string ever equals a number) is the
  Boolean `pyEq`.  Python floats are modelled as exact rationals: the
  tokens coerced by this program are short decimal literals, for which
  rational equality agrees with IEEE double equality (double rounding at
  17+ significant digits is not modelled).
* Python's Unicode digit tables are abbreviated to the characters that
  matter for this program: the ASCII digits `0`-`9` (category `Nd`, so
  `str.isdigit` is true and `int()` accepts them) and the superscript
  digits `¹`, `²`, `³` (`Numeric_Type=Digit`, so `str.isdigit` is true,
  but not category `Nd`, so `int()` raises `ValueError`).  Other Unicode
  numerics behave like one of those two classes and are omitted.
* Code that can raise returns `Except String`; the error string is the
  exception message.
-/

/-! ## Character and string utilities (Python semantics) -/

/-- Whitespace stripped by Python `str.strip()` (ASCII portion). -/
def pyIsSpace (c : Char) : Bool :=
  (c == ' ') || (c == '\t') || (c == '\n') || (c == '\r') || (c == '\x0b') || (c == '\x0c')

/-- `line.strip()` on a list of characters. -/
def pyStripL (cs : List Char) : List Char :=
  ((cs.dropWhile pyIsSpace).reverse.dropWhile pyIsSpace).reverse

/-- Does the second list start with the first (Python `str.startswith`)? -/
def startsWithChars : List Char → List Char → Bool
  | [], _ => true
  | _ :: _, [] => false
  | p :: ps, c :: cs => (p == c) && startsWithChars ps cs

/-- Drop an expected leading sequence, or fail. -/
def dropPre : List Char → List Char → Option (List Char)
  | [], cs => some cs
  | _ :: _, [] => none
  | p :: ps, c :: cs => if p = c then dropPre ps cs else none

/-- Python `line.split(' ', 1)` when the line contains a space:
the part before the first space and everything after it. -/
def splitFirstSpace : List Char → Option (List Char × List Char)
  | [] => none
  | c :: cs =>
    if c = ' ' then some ([], cs)
    else
      match splitFirstSpace cs with
      | some kv => some (c :: kv.1, kv.2)
      | none => none

/-- Prepend a character to the first piece of a split result. -/
def consHead (c : Char) : List (List Char) → List (List Char)
  | [] => [[c]]
  | h :: t => (c :: h) :: t

/-- Python `content.split('\n')`: empty pieces are kept, `""` gives `[""]`. -/
def splitLines : List Char → List (List Char)
  | [] => [[]]
  | c :: cs => if c = '\n' then [] :: splitLines cs else consHead c (splitLines cs)

/-- Python `content.split('\n}\n')` (the record separator of the snapshot format):
leftmost, non-overlapping occurrences. -/
def splitRecords : List Char → List (List Char)
  | [] => [[]]
  | '\n' :: '\x7d' :: '\n' :: rest => [] :: splitRecords rest
  | c :: rest => consHead c (splitRecords rest)

/-- Python `sub in s` substring test. -/
def hasSub (sub : List Char) : List Char → Bool
  | [] => sub.isEmpty
  | c :: cs => startsWithChars sub (c :: cs) || hasSub sub cs

/-! ## AttributeValue: the tagged union of parsed values -/

/-- A value stored in a pool record: Python int, float or str. -/
inductive AttributeValue where
  | IntV : Int → AttributeValue
  | FloatV : Rat → AttributeValue
  | StrV : String → AttributeValue
deriving DecidableEq, Repr

/-- Python `==` on parsed values: numbers compare numerically across the
int/float divide (`1 == 1.0` is `True`); a string never equals a number. -/
def pyEq : AttributeValue → AttributeValue → Bool
  | .IntV m, .IntV n => decide (m = n)
  | .IntV m, .FloatV q => decide ((m : ℚ) = q)
  | .FloatV q, .IntV n => decide (q = (n : ℚ))
  | .FloatV p, .FloatV q => decide (p = q)
  | .StrV s, .StrV t => decide (s = t)
  | _, _ => false

/-! ## Value coercion (`pool_parsing.py` lines 51-56) -/

/-- Python `str.isdigit` on one character (abbreviated Unicode table:
ASCII digits plus the superscript digits, see the file header). -/
def pyIsDigitChar (c : Char) : Bool :=
  c.isDigit || (c == '¹') || (c == '²') || (c == '³')

/-- Python `value.isdigit()`: non-empty and every character is a digit-type character. -/
def pyStrIsDigit (cs : List Char) : Bool :=
  (!cs.isEmpty) && cs.all pyIsDigitChar

/-- Numeric value of a string of ASCII decimal digits. -/
def digitsToNat (cs : List Char) : Nat :=
  cs.foldl (fun n c => 10 * n + (c.toNat - 48)) 0

/-- Python `int(value)` restricted to the tokens reachable here (tokens on
which `value.isdigit()` returned `True`): it succeeds exactly when every
character is a category-`Nd` decimal digit (here: ASCII `0`-`9`), and
raises `ValueError` otherwise (e.g. on superscript digits). -/
def pyIntParse (cs : List Char) : Option Int :=
  if (!cs.isEmpty) && cs.all Char.isDigit then some (digitsToNat cs) else none

/-- Does the token match the regex `^\d+\.\d+$`?  (`\d` is a decimal digit,
category `Nd`; superscripts never match `\d`.) -/
def isFloatToken (cs : List Char) : Bool :=
  let a := cs.takeWhile Char.isDigit
  let r := cs.dropWhile Char.isDigit
  (!a.isEmpty) &&
    (match r with
     | '.' :: b => (!b.isEmpty) && b.all Char.isDigit
     | _ => false)

/-- Exact rational value of a `digits '.' digits` token (Python `float(value)`,
modelled without IEEE rounding). -/
def ratOfToken (cs : List Char) : Rat :=
  let a := cs.takeWhile Char.isDigit
  let b := (cs.dropWhile Char.isDigit).drop 1
  (digitsToNat a : ℚ) + (digitsToNat b : ℚ) / ((10 : ℚ) ^ b.length)

/-- The coercion of `pool_parsing.py` lines 51-56:
`if value.isdigit(): value = int(value)`
`elif re.match(r'^\d+\.\d+$', value): value = float(value)`.
`int()` can raise `ValueError` even when `isdigit()` was true. -/
def coerce_value (v : String) : Except String AttributeValue :=
  if pyStrIsDigit v.data then
    match pyIntParse v.data with
    | some n => .ok (.IntV n)
    | none => .error ("invalid literal for int() with base 10: " ++ v)
  else if isFloatToken v.data then .ok (.FloatV (ratOfToken v.data))
  else .ok (.StrV v)

deriving instance DecidableEq for Except

/-! ## Dicts (Python dictionaries as association lists) -/

/-- A Python dict with string keys. -/
abbrev Dict (α : Type) := List (String × α)

/-- Dict lookup (`d[k]` / `d.get(k)`): first binding of the key. -/
def Dict.get? : Dict α → String → Option α
  | [], _ => none
  | (k, v) :: d, key => if k = key then some v else Dict.get? d key

/-- Dict update `d[k] = v`: replace the binding of an existing key in place
(Python dicts keep the key's insertion position), else append at the end. -/
def Dict.insert : Dict α → String → α → Dict α
  | [], k, v => [(k, v)]
  | (k0, v0) :: d, k, v =>
    if k0 = k then (k, v) :: d else (k0, v0) :: Dict.insert d k v

/-- The keys of a dict, in order. -/
def Dict.keys (d : Dict α) : List String :=
  d.map Prod.fst

/-- The shared loop shape `for k in keysL: if cond k: out[k] = val k`,
starting from an empty dict.  Both result-building loops of the comparison
engine and the diff accumulation have this form. -/
def insertWhen (cond : String → Bool) (val : String → α) (keysL : List String) : Dict α :=
  keysL.foldl (fun d k => if cond k then Dict.insert d k (val k) else d) []

/-! ## The record parser (`parse_pool_record`, lines 30-59, and the
from-string core of `parse_pool_file`, lines 11-27) -/

/-- One pool record: attribute key to value, with the seeded `name` binding. -/
abbrev PoolRecord := Dict AttributeValue

/-- One parsed snapshot: pool name to record (the engine operates on
string-keyed collections as in the data model). -/
abbrev Snapshot := Dict PoolRecord

/-- Try to match the regex `ltm pool ([^ ]+)` at the head of the input:
the literal `ltm pool ` followed by at least one non-space character;
the captured name is the maximal run of non-space characters. -/
def poolNameAt (cs : List Char) : Option String :=
  match dropPre "ltm pool ".data cs with
  | some (c :: rest) =>
    if c = ' ' then none
    else some (String.mk (c :: rest.takeWhile (fun d => !(d == ' '))))
  | _ => none

/-- `re.search(r'ltm pool ([^ ]+)', record)`: leftmost match. -/
def findPoolName : List Char → Option String
  | [] => none
  | c :: cs =>
    match poolNameAt (c :: cs) with
    | some n => some n
    | none => findPoolName cs

/-- The per-line processing of `parse_pool_record` (lines 42-49): strip the
line, skip it if empty, starting with `ltm pool`, or equal to `{`, then
split on the first space into key and raw value (no space: skip). -/
def lineKV (line : List Char) : Option (String × String) :=
  let l := pyStripL line
  if l.isEmpty then none
  else if startsWithChars "ltm pool".data l then none
  else if l = ['\x7b'] then none
  else
    match splitFirstSpace l with
    | some kv => some (String.mk kv.1, String.mk kv.2)
    | none => none

/-- Coerce one key/value pair and store it (lines 46-57); the `int()`
coercion can raise. -/
def applyKV (pd : PoolRecord) (kv : String × String) : Except String PoolRecord :=
  match coerce_value kv.2 with
  | .ok av => .ok (Dict.insert pd kv.1 av)
  | .error e => .error e

/-- Process one line of the record (lines 42-57): skipped lines leave the
record unchanged. -/
def parseLineStep (pd : PoolRecord) (line : List Char) : Except String PoolRecord :=
  match lineKV line with
  | some kv => applyKV pd kv
  | none => .ok pd

/-- The line loop of `parse_pool_record` (lines 41-57), threading the
possible `ValueError` from `int()`. -/
def parseLinesM : List (List Char) → PoolRecord → Except String PoolRecord
  | [], pd => .ok pd
  | line :: rest, pd =>
    match parseLineStep pd line with
    | .ok pd2 => parseLinesM rest pd2
    | .error e => .error e

/-- `parse_pool_record` (lines 30-59): extract the header name or return
`None`; seed the record with `name`; process every line. -/
def parse_pool_record (record : String) : Except String (Option PoolRecord) :=
  match findPoolName record.data with
  | none => .ok none
  | some nm =>
    (parseLinesM (splitLines record.data) [("name", .StrV nm)]).map some

/-- Insert into a Python dict whose keys are arbitrary values, compared by
Python `==` (an existing equal key keeps its original key object). -/
def insertByPyEq : List (AttributeValue × PoolRecord) → AttributeValue → PoolRecord →
    List (AttributeValue × PoolRecord)
  | [], k, v => [(k, v)]
  | (k0, v0) :: d, k, v =>
    if pyEq k0 k then (k0, v) :: d else (k0, v0) :: insertByPyEq d k v

/-- The record loop of `parse_pool_file` (lines 18-25): keep fragments
containing `ltm pool `, parse them, and key the accumulator by the
record's (final) `name` value.  The `name` key is always present (seeded
before the line loop and never deleted), so the `getD` default is never
used. -/
def parseRecordsM : List (List Char) → List (AttributeValue × PoolRecord) →
    Except String (List (AttributeValue × PoolRecord))
  | [], pools => .ok pools
  | r :: rest, pools =>
    if hasSub "ltm pool ".data r then
      match parse_pool_record (String.mk r) with
      | .ok (some pd) =>
        parseRecordsM rest (insertByPyEq pools ((Dict.get? pd "name").getD (.StrV "")) pd)
      | .ok none => parseRecordsM rest pools
      | .error e => .error e
    else parseRecordsM rest pools

/-- The from-string core of `parse_pool_file` (lines 16-27): split the
content on the record separator and accumulate the parsed records.
File I/O is excluded; the content string is the file's contents. -/
def parse_pool_file_content (content : String) :
    Except String (List (AttributeValue × PoolRecord)) :=
  parseRecordsM (splitRecords content.data) []

/-! ## The comparison engine -/

/-- `record.get(key, '<missing>')` (lines 144-145 and 194-195). -/
def getAttr (p : PoolRecord) (k : String) : AttributeValue :=
  (Dict.get? p k).getD (.StrV "<missing>")

/-- Which keys to compare (lines 134-139 and 186-191): the union of both
records' keys, or the caller-supplied set.  Python iterates a `set`, so
duplicates are collapsed. -/
def keysToCompare (p1 p2 : PoolRecord) : Option (List String) → List String
  | none => (Dict.keys p1 ++ Dict.keys p2).dedup
  | some ks => ks.dedup

/-- One per-pool diff cell: the status marker string, or the two-sided
value dict `{filename1: value1, filename2: value2}` (lines 198-201). -/
inductive DiffCell where
  | status : String → DiffCell
  | vals : Dict AttributeValue → DiffCell
deriving DecidableEq, Repr

/-- The value dict recorded for a differing key (lines 198-201). -/
def diffCell (f1 f2 : String) (v1 v2 : AttributeValue) : DiffCell :=
  .vals (Dict.insert (Dict.insert [] f1 v1) f2 v2)

/-- The attribute-comparison loop of `compare_pool_data` (lines 193-201). -/
def attrDiffs (p1 p2 : PoolRecord) (f1 f2 : String) (keysL : List String) : Dict DiffCell :=
  insertWhen (fun k => !(pyEq (getAttr p1 k) (getAttr p2 k)))
    (fun k => diffCell f1 f2 (getAttr p1 k) (getAttr p2 k)) keysL

/-- The per-pool diff of `compare_pool_data` (lines 173-201): a status
marker when the pool is absent from a side (checked in argument order),
else the attribute diffs. -/
def poolDiffs (d1 d2 : Snapshot) (f1 f2 : String) (ktc : Option (List String))
    (pool : String) : Dict DiffCell :=
  match Dict.get? d1 pool, Dict.get? d2 pool with
  | none, _ => [("pool_status", .status ("Missing in " ++ f1))]
  | some _, none => [("pool_status", .status ("Missing in " ++ f2))]
  | some p1, some p2 => attrDiffs p1 p2 f1 f2 (keysToCompare p1 p2 ktc)

/-- `set(data1.keys()) | set(data2.keys())` (line 170). -/
def allPoolNames (d1 d2 : Snapshot) : List String :=
  (Dict.keys d1 ++ Dict.keys d2).dedup

/-- `compare_pool_data` (lines 157-206): per-pool diffs over the union of
pool names; only pools with a non-empty diff appear (lines 203-204). -/
def compare_pool_data (d1 d2 : Snapshot) (f1 f2 : String)
    (ktc : Option (List String)) : Dict (Dict DiffCell) :=
  insertWhen (fun pool => !(poolDiffs d1 d2 f1 f2 ktc pool).isEmpty)
    (poolDiffs d1 d2 f1 f2 ktc) (allPoolNames d1 d2)

/-- `filter_pools_by_condition` (lines 77-94): keep pools whose record maps
the filter key to a value Python-equal to the filter value
(`pool_info.get(filter_key) == filter_value`; an absent key gives `None`,
which equals no `AttributeValue`). -/
def filter_pools_by_condition (d : Snapshot) (fk : String) (fv : AttributeValue) : Snapshot :=
  d.filter (fun p =>
    match Dict.get? p.2 fk with
    | some v => pyEq v fv
    | none => false)

/-- `set(data1.keys()) & set(data2.keys())` (line 127). -/
def commonPools (d1 d2 : Snapshot) : List String :=
  (Dict.keys d1).dedup.filter (fun p => (Dict.get? d2 p).isSome)

/-- The per-pool unchanged-attribute loop (lines 141-149): keep a key when
both fetched values are equal and the first is not `'<missing>'`. -/
def unchangedAttrs (p1 p2 : PoolRecord) (keysL : List String) : Dict AttributeValue :=
  insertWhen
    (fun k => pyEq (getAttr p1 k) (getAttr p2 k)
      && !(pyEq (getAttr p1 k) (.StrV "<missing>")))
    (fun k => getAttr p1 k) keysL

/-- The unchanged attributes of one common pool (lines 129-149). -/
def unchangedFor (d1 d2 : Snapshot) (ktc : Option (List String)) (pool : String) :
    Dict AttributeValue :=
  match Dict.get? d1 pool, Dict.get? d2 pool with
  | some p1, some p2 => unchangedAttrs p1 p2 (keysToCompare p1 p2 ktc)
  | _, _ => []

/-- The unfiltered body of `check_unchanged_values` (lines 124-154): over
the common pools, keep pools with at least one unchanged attribute. -/
def check_unchanged_core (d1 d2 : Snapshot) (ktc : Option (List String)) :
    Dict (Dict AttributeValue) :=
  insertWhen (fun pool => !(unchangedFor d1 d2 ktc pool).isEmpty)
    (unchangedFor d1 d2 ktc) (commonPools d1 d2)

/-- `check_unchanged_values` (lines 97-154): narrow both collections first
when both filter arguments are supplied (lines 112-122), then run the
unchanged analysis.  The filenames are only used for diagnostics. -/
def check_unchanged_values (d1 d2 : Snapshot) (f1 f2 : String)
    (fk : Option String) (fv : Option AttributeValue)
    (ktc : Option (List String)) : Dict (Dict AttributeValue) :=
  match fk, fv with
  | some k, some v =>
    check_unchanged_core (filter_pools_by_condition d1 k v)
      (filter_pools_by_condition d2 k v) ktc
  | _, _ => check_unchanged_core d1 d2 ktc

/-! ## Observations used by the claims -/

/-- Does key `k` appear in the result under pool `p`? -/
def keyInResult (res : Dict (Dict α)) (p k : String) : Bool :=
  match Dict.get? res p with
  | some pd => (Dict.get? pd k).isSome
  | none => false

/-- Is this looked-up diff cell a status marker? -/
def isStatusCell : Option DiffCell → Bool
  | some (.status _) => true
  | _ => false

/-- Does pool `q` receive a status marker in a diff result? -/
def hasStatusMarker (res : Dict (Dict DiffCell)) (q : String) : Bool :=
  match Dict.get? res q with
  | some pd => isStatusCell (Dict.get? pd "pool_status")
  | none => false

/-- Is the entry of pool `p` (if any) non-empty? -/
def noEmptyAt (res : Dict (Dict α)) (p : String) : Bool :=
  match Dict.get? res p with
  | some pd => !pd.isEmpty
  | none => true

/-- Does some stripped, retained line of the record produce the key `k`? -/
def producesKey (record : String) (k : String) : Bool :=
  (splitLines record.data).any (fun l =>
    match lineKV l with
    | some kv => kv.1 == k
    | none => false)

/-! ## Dict lemmas -/

theorem Dict.keys_cons (a : String × α) (t : Dict α) :
    Dict.keys (a :: t) = a.1 :: Dict.keys t := rfl

theorem Dict.get?_insert_self (d : Dict α) (k : String) (v : α) :
    Dict.get? (Dict.insert d k v) k = some v := by
  induction d with
  | nil => simp [Dict.insert, Dict.get?]
  | cons a t ih =>
    obtain ⟨ak, av⟩ := a
    by_cases h : ak = k
    · subst h
      simp [Dict.insert, Dict.get?]
    · simp [Dict.insert, Dict.get?, h, ih]

theorem Dict.get?_insert_ne (d : Dict α) (k0 k : String) (v : α) (h : k0 ≠ k) :
    Dict.get? (Dict.insert d k0 v) k = Dict.get? d k := by
  induction d with
  | nil => simp [Dict.insert, Dict.get?, h]
  | cons a t ih =>
    obtain ⟨ak, av⟩ := a
    by_cases hak : ak = k0
    · subst hak
      simp [Dict.insert, Dict.get?, h]
    · simp [Dict.insert, Dict.get?, hak, ih]

theorem Dict.get?_insert_isSome (d : Dict α) (k0 k : String) (v : α)
    (h : (Dict.get? d k).isSome = true) :
    (Dict.get? (Dict.insert d k0 v) k).isSome = true := by
  by_cases hk : k0 = k
  · subst hk
    simp [Dict.get?_insert_self]
  · rwa [Dict.get?_insert_ne _ _ _ _ hk]

theorem Dict.get?_isSome_iff_mem_keys (d : Dict α) (k : String) :
    (Dict.get? d k).isSome = true ↔ k ∈ Dict.keys d := by
  induction d with
  | nil => simp [Dict.get?, Dict.keys]
  | cons a t ih =>
    obtain ⟨ak, av⟩ := a
    by_cases h : ak = k
    · subst h
      simp [Dict.get?, Dict.keys_cons]
    · simp [Dict.get?, Dict.keys_cons, h, Ne.symm h, ih]

/-! ## insertWhen lemmas -/

theorem get?_foldl_insertIf (cond : String → Bool) (val : String → α)
    (keysL : List String) (init : Dict α) (k : String) :
    Dict.get? (keysL.foldl
        (fun d k0 => if cond k0 then Dict.insert d k0 (val k0) else d) init) k =
      if k ∈ keysL ∧ cond k = true then some (val k) else Dict.get? init k := by
  induction keysL generalizing init with
  | nil => simp
  | cons k0 rest ih =>
    rw [List.foldl_cons]
    by_cases hc0 : cond k0 = true
    · rw [if_pos hc0, ih]
      by_cases hk : k0 = k
      · subst hk
        by_cases hrest : k0 ∈ rest ∧ cond k0 = true
        · have hcons : k0 ∈ k0 :: rest ∧ cond k0 = true :=
            ⟨List.mem_cons_self _ _, hc0⟩
          simp [hrest, hcons]
        · have hcons : k0 ∈ k0 :: rest ∧ cond k0 = true :=
            ⟨List.mem_cons_self _ _, hc0⟩
          simp [hrest, hcons, Dict.get?_insert_self]
      · have hcons : (k ∈ k0 :: rest ∧ cond k = true) ↔ (k ∈ rest ∧ cond k = true) := by
          rw [List.mem_cons]
          constructor
          · rintro ⟨hm1 | hm2, hcnd⟩
            · exact absurd hm1.symm hk
            · exact ⟨hm2, hcnd⟩
          · rintro ⟨hm, hcnd⟩
            exact ⟨Or.inr hm, hcnd⟩
        rw [Dict.get?_insert_ne init k0 k (val k0) hk]
        by_cases hrest : k ∈ rest ∧ cond k = true
        · simp [hrest, hcons.2 hrest]
        · have hnorm : ¬((k = k0 ∨ k ∈ rest) ∧ cond k = true) := by
            rintro ⟨h1 | h2, hcnd⟩
            · exact hk h1.symm
            · exact hrest ⟨h2, hcnd⟩
          simp [hrest, hnorm]
    · rw [if_neg hc0, ih]
      by_cases hrest : k ∈ rest ∧ cond k = true
      · have hcons : k ∈ k0 :: rest ∧ cond k = true :=
          ⟨List.mem_cons_of_mem _ hrest.1, hrest.2⟩
        simp [hrest, hcons]
      · have hnorm : ¬((k = k0 ∨ k ∈ rest) ∧ cond k = true) := by
          rintro ⟨h1 | h2, hcnd⟩
          · exact hc0 (h1 ▸ hcnd)
          · exact hrest ⟨h2, hcnd⟩
        simp [hrest, hnorm]

theorem get?_insertWhen (cond : String → Bool) (val : String → α)
    (keysL : List String) (k : String) :
    Dict.get? (insertWhen cond val keysL) k =
      if k ∈ keysL ∧ cond k = true then some (val k) else none := by
  rw [insertWhen, get?_foldl_insertIf]
  rfl

theorem insertWhen_eq_nil (cond : String → Bool) (val : String → α)
    (keysL : List String) (h : ∀ k ∈ keysL, cond k = false) :
    insertWhen cond val keysL = [] := by
  induction keysL with
  | nil => rfl
  | cons k0 rest ih =>
    have h0 : cond k0 = false := h k0 (List.mem_cons_self _ _)
    have hstep : insertWhen cond val (k0 :: rest) = insertWhen cond val rest := by
      simp [insertWhen, h0]
    rw [hstep]
    exact ih (fun k hk => h k (List.mem_cons_of_mem _ hk))

theorem insertWhen_singleton (cond : String → Bool) (val : String → α) (k : String) :
    insertWhen cond val [k] = if cond k then [(k, val k)] else [] := by
  by_cases h : cond k = true <;> simp [insertWhen, Dict.insert, h]

/-! ## pyEq lemmas -/

theorem pyEq_refl (v : AttributeValue) : pyEq v v = true := by
  cases v <;> simp [pyEq]

theorem pyEq_strV_right (v : AttributeValue) (s : String) :
    pyEq v (.StrV s) = true ↔ v = .StrV s := by
  cases v <;> simp [pyEq]

theorem pyEq_strV_left (s : String) (v : AttributeValue) :
    pyEq (.StrV s) v = true ↔ v = .StrV s := by
  cases v <;> simp [pyEq, eq_comm]

/-! ## Membership in the engine's pool-name sets -/

theorem mem_allPoolNames (d1 d2 : Snapshot) (p : String) :
    p ∈ allPoolNames d1 d2 ↔ p ∈ Dict.keys d1 ∨ p ∈ Dict.keys d2 := by
  rw [allPoolNames, List.mem_dedup, List.mem_append]

theorem mem_commonPools (d1 d2 : Snapshot) (p : String) :
    p ∈ commonPools d1 d2 ↔ p ∈ Dict.keys d1 ∧ (Dict.get? d2 p).isSome = true := by
  rw [commonPools, List.mem_filter, List.mem_dedup]

/-! ## Result-shape lemmas -/

theorem noEmptyAt_insertWhen (F : String → Dict α) (pools : List String) (p : String) :
    noEmptyAt (insertWhen (fun q => !(F q).isEmpty) F pools) p = true := by
  unfold noEmptyAt
  rw [get?_insertWhen]
  by_cases h : p ∈ pools ∧ (!(F p).isEmpty) = true
  · rw [if_pos h]
    exact h.2
  · rw [if_neg h]

theorem keyInResult_insertWhen (F : String → Dict α) (pools : List String) (p k : String) :
    keyInResult (insertWhen (fun q => !(F q).isEmpty) F pools) p k =
      (decide (p ∈ pools) && (Dict.get? (F p) k).isSome) := by
  unfold keyInResult
  rw [get?_insertWhen]
  by_cases hmem : p ∈ pools
  · by_cases hne : (!(F p).isEmpty) = true
    · rw [if_pos ⟨hmem, hne⟩]
      simp [hmem]
    · rw [if_neg (fun hand => hne hand.2)]
      have hnil : F p = [] := by
        cases hFp : F p with
        | nil => rfl
        | cons a t => rw [hFp] at hne; simp [List.isEmpty] at hne
      simp [hmem, hnil, Dict.get?]
  · rw [if_neg (fun hand => hmem hand.1)]
    simp [hmem]

/-! ## Claim C5 -/

/-- Claim C5: for every collection X and every optional key set (unset or
any supplied set), `compare(X, X, labelA, labelB, keysToCheck)` yields an
empty DiffResult. -/
theorem C5_compare_self_empty (X : Snapshot) (f1 f2 : String)
    (ktc : Option (List String)) :
    compare_pool_data X X f1 f2 ktc = [] := by
  unfold compare_pool_data
  apply insertWhen_eq_nil
  intro p hp
  have hs : (Dict.get? X p).isSome = true := by
    rcases (mem_allPoolNames X X p).1 hp with h | h <;>
      exact (Dict.get?_isSome_iff_mem_keys X p).2 h
  obtain ⟨r, hr⟩ := Option.isSome_iff_exists.1 hs
  have hpd : poolDiffs X X f1 f2 ktc p = [] := by
    unfold poolDiffs
    rw [hr]
    unfold attrDiffs
    exact insertWhen_eq_nil _ _ _ (fun k _ => by simp [pyEq_refl])
  simp [hpd]

/-! ## Claim C8 -/

/-- Claim C8: for every pair of input collections and every choice of the
optional arguments, a DiffResult returned by `compare_pool_data` never maps
a pool to an empty per-pool diff, and an UnchangedResult returned by
`check_unchanged_values` never maps a pool to an empty attribute mapping. -/
theorem C8_no_empty_entries (d1 d2 : Snapshot) (f1 f2 : String)
    (fk : Option String) (fv : Option AttributeValue)
    (ktc : Option (List String)) (p : String) :
    noEmptyAt (compare_pool_data d1 d2 f1 f2 ktc) p = true ∧
    noEmptyAt (check_unchanged_values d1 d2 f1 f2 fk fv ktc) p = true := by
  constructor
  · exact noEmptyAt_insertWhen (poolDiffs d1 d2 f1 f2 ktc) (allPoolNames d1 d2) p
  · cases fk with
    | none =>
      cases fv with
      | none => exact noEmptyAt_insertWhen _ _ p
      | some v => exact noEmptyAt_insertWhen _ _ p
    | some k =>
      cases fv with
      | none => exact noEmptyAt_insertWhen _ _ p
      | some v => exact noEmptyAt_insertWhen _ _ p

/-! ## Claim C9 -/

/-- A pool absent from the first collection but present in the second gets
exactly the `Missing in <first label>` marker entry. -/
theorem compare_get?_absent_first (d1 d2 : Snapshot) (f1 f2 : String)
    (ktc : Option (List String)) (p : String)
    (h1 : Dict.get? d1 p = none) (h2 : (Dict.get? d2 p).isSome = true) :
    Dict.get? (compare_pool_data d1 d2 f1 f2 ktc) p =
      some [("pool_status", DiffCell.status ("Missing in " ++ f1))] := by
  have hmem : p ∈ allPoolNames d1 d2 :=
    (mem_allPoolNames d1 d2 p).2 (Or.inr ((Dict.get?_isSome_iff_mem_keys d2 p).1 h2))
  have hpd : poolDiffs d1 d2 f1 f2 ktc p =
      [("pool_status", DiffCell.status ("Missing in " ++ f1))] := by
    unfold poolDiffs
    rw [h1]
  unfold compare_pool_data
  rw [get?_insertWhen, if_pos ⟨hmem, by rw [hpd]; rfl⟩, hpd]

/-- A pool present in the first collection but absent from the second gets
exactly the `Missing in <second label>` marker entry. -/
theorem compare_get?_absent_second (d1 d2 : Snapshot) (f1 f2 : String)
    (ktc : Option (List String)) (p : String)
    (h1 : (Dict.get? d1 p).isSome = true) (h2 : Dict.get? d2 p = none) :
    Dict.get? (compare_pool_data d1 d2 f1 f2 ktc) p =
      some [("pool_status", DiffCell.status ("Missing in " ++ f2))] := by
  obtain ⟨r, hr⟩ := Option.isSome_iff_exists.1 h1
  have hmem : p ∈ allPoolNames d1 d2 :=
    (mem_allPoolNames d1 d2 p).2 (Or.inl ((Dict.get?_isSome_iff_mem_keys d1 p).1 h1))
  have hpd : poolDiffs d1 d2 f1 f2 ktc p =
      [("pool_status", DiffCell.status ("Missing in " ++ f2))] := by
    unfold poolDiffs
    rw [hr, h2]
  unfold compare_pool_data
  rw [get?_insertWhen, if_pos ⟨hmem, by rw [hpd]; rfl⟩, hpd]

/-- Claim C9: in every DiffResult produced by `compare_pool_data`, a pool
absent from exactly one of the two input collections is mapped to exactly
the single-entry mapping from `pool_status` to the missing-side message; a
status marker and attribute value pairs never coexist for such a pool. -/
theorem C9_missing_pool_entry (d1 d2 : Snapshot) (f1 f2 : String)
    (ktc : Option (List String)) (p : String) :
    (Dict.get? d1 p = none → (Dict.get? d2 p).isSome = true →
      Dict.get? (compare_pool_data d1 d2 f1 f2 ktc) p =
        some [("pool_status", DiffCell.status ("Missing in " ++ f1))]) ∧
    ((Dict.get? d1 p).isSome = true → Dict.get? d2 p = none →
      Dict.get? (compare_pool_data d1 d2 f1 f2 ktc) p =
        some [("pool_status", DiffCell.status ("Missing in " ++ f2))]) :=
  ⟨compare_get?_absent_first d1 d2 f1 f2 ktc p,
   compare_get?_absent_second d1 d2 f1 f2 ktc p⟩

/-- Witness for C9 at concrete inputs: a pool present only on one side gets
exactly the status-marker entry, in both argument orders. -/
theorem C9_missing_pool_entry_witness :
    Dict.get? (compare_pool_data []
      [("p", [("k", AttributeValue.IntV 1)])] "a" "b" none) "p" =
      some [("pool_status", DiffCell.status ("Missing in " ++ "a"))] ∧
    Dict.get? (compare_pool_data [("p", [("k", AttributeValue.IntV 1)])]
      [] "a" "b" none) "p" =
      some [("pool_status", DiffCell.status ("Missing in " ++ "b"))] :=
  ⟨(C9_missing_pool_entry [] [("p", [("k", AttributeValue.IntV 1)])] "a" "b" none "p").1
      (by decide) (by decide),
   (C9_missing_pool_entry [("p", [("k", AttributeValue.IntV 1)])] [] "a" "b" none "p").2
      (by decide) (by decide)⟩

/-! ## Claim C4 -/

/-- Counterexample to claim C4 as stated: pool `p` is common to both
collections and key `k` is present in the first pool record (with the
literal string value `<missing>`), yet `k` appears neither in the diff
result for key set `[k]` nor in the unchanged result for key set `[k]`:
both results are entirely empty, so "exactly one, never neither" fails. -/
theorem C4_complementarity_cex :
    Dict.get? [("k", AttributeValue.StrV "<missing>")] "k" =
      some (AttributeValue.StrV "<missing>") ∧
    compare_pool_data [("p", [("k", AttributeValue.StrV "<missing>")])]
      [("p", [])] "a" "b" (some ["k"]) = [] ∧
    check_unchanged_values [("p", [("k", AttributeValue.StrV "<missing>")])]
      [("p", [])] "a" "b" none none (some ["k"]) = [] := by
  decide

/-- Claim C4, amended: for collections A and B, a pool `p` common to both
(with records `p1`, `p2`) and any key `k`, exactly one of "k appears in the
diff result for key set `[k]` under p" and "k appears in the unchanged
result for key set `[k]` under p" holds — provided the two values fetched
for `k` (with the `<missing>` default) are not both the literal string
`<missing>`.  The original claim assumed only that `k` is present on at
least one side; a present value equal to the literal string `<missing>`
defeats that, and then neither holds. -/
theorem C4_complementarity (A B : Snapshot) (f1 f2 g1 g2 : String)
    (p k : String) (p1 p2 : PoolRecord)
    (hA : Dict.get? A p = some p1) (hB : Dict.get? B p = some p2)
    (hs : ¬(getAttr p1 k = .StrV "<missing>" ∧ getAttr p2 k = .StrV "<missing>")) :
    keyInResult (compare_pool_data A B f1 f2 (some [k])) p k =
      !(keyInResult (check_unchanged_values A B g1 g2 none none (some [k])) p k) := by
  have hmemA : p ∈ Dict.keys A :=
    (Dict.get?_isSome_iff_mem_keys A p).1 (by rw [hA]; rfl)
  have hmemAll : p ∈ allPoolNames A B := (mem_allPoolNames A B p).2 (Or.inl hmemA)
  have hmemCommon : p ∈ commonPools A B :=
    (mem_commonPools A B p).2 ⟨hmemA, by rw [hB]; rfl⟩
  have hkeys : keysToCompare p1 p2 (some [k]) = [k] := by
    rw [keysToCompare]
    simp
  have hcmp : keyInResult (compare_pool_data A B f1 f2 (some [k])) p k =
      !(pyEq (getAttr p1 k) (getAttr p2 k)) := by
    unfold compare_pool_data
    rw [keyInResult_insertWhen]
    have hpd : poolDiffs A B f1 f2 (some [k]) p = attrDiffs p1 p2 f1 f2 [k] := by
      unfold poolDiffs
      rw [hA, hB]
      show attrDiffs p1 p2 f1 f2 (keysToCompare p1 p2 (some [k])) = _
      rw [hkeys]
    rw [hpd]
    unfold attrDiffs
    rw [insertWhen_singleton]
    by_cases hc : (!(pyEq (getAttr p1 k) (getAttr p2 k))) = true
    · rw [if_pos hc, hc]
      simp [hmemAll, Dict.get?]
    · have hcf := Bool.eq_false_iff.2 hc
      rw [if_neg hc, hcf]
      simp [hmemAll, Dict.get?]
  have hunch : keyInResult (check_unchanged_values A B g1 g2 none none (some [k])) p k =
      (pyEq (getAttr p1 k) (getAttr p2 k)
        && !(pyEq (getAttr p1 k) (.StrV "<missing>"))) := by
    show keyInResult (check_unchanged_core A B (some [k])) p k = _
    unfold check_unchanged_core
    rw [keyInResult_insertWhen]
    have hpd : unchangedFor A B (some [k]) p = unchangedAttrs p1 p2 [k] := by
      unfold unchangedFor
      rw [hA, hB]
      show unchangedAttrs p1 p2 (keysToCompare p1 p2 (some [k])) = _
      rw [hkeys]
    rw [hpd]
    unfold unchangedAttrs
    rw [insertWhen_singleton]
    by_cases hc : (pyEq (getAttr p1 k) (getAttr p2 k)
        && !(pyEq (getAttr p1 k) (.StrV "<missing>"))) = true
    · rw [if_pos hc, hc]
      simp [hmemCommon, Dict.get?]
    · have hcf := Bool.eq_false_iff.2 hc
      rw [if_neg hc, hcf]
      simp [hmemCommon, Dict.get?]
  rw [hcmp, hunch]
  cases he : pyEq (getAttr p1 k) (getAttr p2 k) with
  | false => simp
  | true =>
    have hm : pyEq (getAttr p1 k) (AttributeValue.StrV "<missing>") = false := by
      cases hmv : pyEq (getAttr p1 k) (AttributeValue.StrV "<missing>") with
      | false => rfl
      | true =>
        have h1 : getAttr p1 k = .StrV "<missing>" := (pyEq_strV_right _ _).1 hmv
        have h2 : getAttr p2 k = .StrV "<missing>" := by
          rw [h1] at he
          exact (pyEq_strV_left _ _).1 he
        exact absurd ⟨h1, h2⟩ hs
    simp [hm]

/-- Witness for the amended C4 at concrete inputs: for a common pool with
two genuinely different values at `k`, the key appears in the diff result
and (equivalently, stated as Boolean complement) not in the unchanged one. -/
theorem C4_complementarity_witness :
    keyInResult (compare_pool_data [("p", [("k", AttributeValue.IntV 1)])]
      [("p", [("k", AttributeValue.IntV 2)])] "a" "b" (some ["k"])) "p" "k" =
    !(keyInResult (check_unchanged_values [("p", [("k", AttributeValue.IntV 1)])]
      [("p", [("k", AttributeValue.IntV 2)])] "a" "b" none none (some ["k"])) "p" "k") :=
  C4_complementarity [("p", [("k", AttributeValue.IntV 1)])]
    [("p", [("k", AttributeValue.IntV 2)])] "a" "b" "a" "b" "p" "k"
    [("k", AttributeValue.IntV 1)] [("k", AttributeValue.IntV 2)]
    (by decide) (by decide) (by decide)

/-! ## Claim C10 -/

/-- Claim C10: a legitimately present attribute value equal to the literal
string `<missing>` is indistinguishable from absence: for a common pool,
`check_unchanged_values` never reports a key whose value on both sides is
the string `<missing>` (even though both sides agree), and
`compare_pool_data` produces no diff entry for a key mapping to the string
`<missing>` on one side and absent from the other (in either order). -/
theorem C10_sentinel_indistinguishable (A B : Snapshot) (f1 f2 g1 g2 : String)
    (ktc1 ktc2 : Option (List String)) (p k : String) (p1 p2 : PoolRecord)
    (hA : Dict.get? A p = some p1) (hB : Dict.get? B p = some p2) :
    (Dict.get? p1 k = some (.StrV "<missing>") →
      Dict.get? p2 k = some (.StrV "<missing>") →
      keyInResult (check_unchanged_values A B g1 g2 none none ktc2) p k = false) ∧
    (Dict.get? p1 k = some (.StrV "<missing>") → Dict.get? p2 k = none →
      keyInResult (compare_pool_data A B f1 f2 ktc1) p k = false) ∧
    (Dict.get? p1 k = none → Dict.get? p2 k = some (.StrV "<missing>") →
      keyInResult (compare_pool_data A B f1 f2 ktc1) p k = false) := by
  have hcmp : getAttr p1 k = .StrV "<missing>" → getAttr p2 k = .StrV "<missing>" →
      keyInResult (compare_pool_data A B f1 f2 ktc1) p k = false := by
    intro hv1 hv2
    unfold compare_pool_data
    rw [keyInResult_insertWhen]
    have hpd : poolDiffs A B f1 f2 ktc1 p =
        attrDiffs p1 p2 f1 f2 (keysToCompare p1 p2 ktc1) := by
      unfold poolDiffs
      rw [hA, hB]
    rw [hpd]
    unfold attrDiffs
    rw [get?_insertWhen]
    have hcond : ¬(k ∈ keysToCompare p1 p2 ktc1 ∧
        (!(pyEq (getAttr p1 k) (getAttr p2 k))) = true) := by
      rintro ⟨-, hcnd⟩
      rw [hv1, hv2] at hcnd
      simp [pyEq_refl] at hcnd
    rw [if_neg hcond]
    simp
  refine ⟨?_, ?_, ?_⟩
  · intro h1 h2
    have hv1 : getAttr p1 k = .StrV "<missing>" := by unfold getAttr; rw [h1]; rfl
    have hv2 : getAttr p2 k = .StrV "<missing>" := by unfold getAttr; rw [h2]; rfl
    show keyInResult (check_unchanged_core A B ktc2) p k = false
    unfold check_unchanged_core
    rw [keyInResult_insertWhen]
    have hpd : unchangedFor A B ktc2 p =
        unchangedAttrs p1 p2 (keysToCompare p1 p2 ktc2) := by
      unfold unchangedFor
      rw [hA, hB]
    rw [hpd]
    unfold unchangedAttrs
    rw [get?_insertWhen]
    have hcond : ¬(k ∈ keysToCompare p1 p2 ktc2 ∧
        (pyEq (getAttr p1 k) (getAttr p2 k)
          && !(pyEq (getAttr p1 k) (.StrV "<missing>"))) = true) := by
      rintro ⟨-, hcnd⟩
      rw [hv1, hv2] at hcnd
      simp [pyEq_refl] at hcnd
    rw [if_neg hcond]
    simp
  · intro h1 h2
    exact hcmp (by unfold getAttr; rw [h1]; rfl) (by unfold getAttr; rw [h2]; rfl)
  · intro h1 h2
    exact hcmp (by unfold getAttr; rw [h1]; rfl) (by unfold getAttr; rw [h2]; rfl)

/-- Witness for C10 at concrete inputs: a pool whose key holds the literal
string `<missing>` on both sides is not reported unchanged, and a key with
that literal on one side and absent on the other produces no diff entry. -/
theorem C10_sentinel_indistinguishable_witness :
    keyInResult (check_unchanged_values
      [("p", [("k", AttributeValue.StrV "<missing>")])]
      [("p", [("k", AttributeValue.StrV "<missing>")])] "a" "b" none none none) "p" "k"
      = false ∧
    keyInResult (compare_pool_data
      [("p", [("k", AttributeValue.StrV "<missing>")])]
      [("p", [])] "a" "b" none) "p" "k" = false ∧
    keyInResult (compare_pool_data
      [("p", [])]
      [("p", [("k", AttributeValue.StrV "<missing>")])] "a" "b" none) "p" "k" = false :=
  ⟨(C10_sentinel_indistinguishable
      [("p", [("k", AttributeValue.StrV "<missing>")])]
      [("p", [("k", AttributeValue.StrV "<missing>")])] "a" "b" "a" "b" none none "p" "k"
      [("k", AttributeValue.StrV "<missing>")] [("k", AttributeValue.StrV "<missing>")]
      (by decide) (by decide)).1 (by decide) (by decide),
   (C10_sentinel_indistinguishable
      [("p", [("k", AttributeValue.StrV "<missing>")])]
      [("p", [])] "a" "b" "a" "b" none none "p" "k"
      [("k", AttributeValue.StrV "<missing>")] []
      (by decide) (by decide)).2.1 (by decide) (by decide),
   (C10_sentinel_indistinguishable
      [("p", [])]
      [("p", [("k", AttributeValue.StrV "<missing>")])] "a" "b" "a" "b" none none "p" "k"
      [] [("k", AttributeValue.StrV "<missing>")]
      (by decide) (by decide)).2.2 (by decide) (by decide)⟩

/-! ## Claim C6 -/

/-- A pool receives a status marker in a diff result exactly when it is in
the union of pool names and absent from at least one side.  (For a common
pool every recorded cell is a `vals` cell, never a `status` cell.) -/
theorem hasStatusMarker_compare (A B : Snapshot) (f1 f2 : String)
    (ktc : Option (List String)) (q : String) :
    hasStatusMarker (compare_pool_data A B f1 f2 ktc) q = true ↔
      (q ∈ allPoolNames A B ∧ (Dict.get? A q = none ∨ Dict.get? B q = none)) := by
  by_cases hsel : q ∈ allPoolNames A B ∧ (!(poolDiffs A B f1 f2 ktc q).isEmpty) = true
  · have hres : Dict.get? (compare_pool_data A B f1 f2 ktc) q =
        some (poolDiffs A B f1 f2 ktc q) := by
      unfold compare_pool_data
      rw [get?_insertWhen, if_pos hsel]
    unfold hasStatusMarker
    rw [hres]
    show isStatusCell (Dict.get? (poolDiffs A B f1 f2 ktc q) "pool_status") = true ↔ _
    cases hA : Dict.get? A q with
    | none =>
      have hpd : poolDiffs A B f1 f2 ktc q =
          [("pool_status", DiffCell.status ("Missing in " ++ f1))] := by
        unfold poolDiffs
        rw [hA]
      rw [hpd]
      simp [Dict.get?, isStatusCell, hsel.1, hA]
    | some p1 =>
      cases hB : Dict.get? B q with
      | none =>
        have hpd : poolDiffs A B f1 f2 ktc q =
            [("pool_status", DiffCell.status ("Missing in " ++ f2))] := by
          unfold poolDiffs
          rw [hA, hB]
        rw [hpd]
        simp [Dict.get?, isStatusCell, hsel.1, hB]
      | some p2 =>
        have hpd : poolDiffs A B f1 f2 ktc q =
            attrDiffs p1 p2 f1 f2 (keysToCompare p1 p2 ktc) := by
          unfold poolDiffs
          rw [hA, hB]
        rw [hpd]
        unfold attrDiffs
        rw [get?_insertWhen]
        constructor
        · intro hmk
          by_cases hin : "pool_status" ∈ keysToCompare p1 p2 ktc ∧
              (!(pyEq (getAttr p1 "pool_status") (getAttr p2 "pool_status"))) = true
          · rw [if_pos hin] at hmk
            simp [isStatusCell, diffCell] at hmk
          · rw [if_neg hin] at hmk
            simp [isStatusCell] at hmk
        · rintro ⟨-, hor⟩
          rcases hor with h | h
          · exact Option.noConfusion h
          · exact Option.noConfusion h
  · have hres : Dict.get? (compare_pool_data A B f1 f2 ktc) q = none := by
      unfold compare_pool_data
      rw [get?_insertWhen, if_neg hsel]
    unfold hasStatusMarker
    rw [hres]
    show false = true ↔ _
    constructor
    · intro hmk
      exact Bool.noConfusion hmk
    · rintro ⟨hmem, hor⟩
      exfalso
      apply hsel
      refine ⟨hmem, ?_⟩
      rcases hor with h | h
      · have hpd : poolDiffs A B f1 f2 ktc q =
            [("pool_status", DiffCell.status ("Missing in " ++ f1))] := by
          unfold poolDiffs
          rw [h]
        rw [hpd]
        rfl
      · cases hA : Dict.get? A q with
        | none =>
          have hpd : poolDiffs A B f1 f2 ktc q =
              [("pool_status", DiffCell.status ("Missing in " ++ f1))] := by
            unfold poolDiffs
            rw [hA]
          rw [hpd]
          rfl
        | some p1 =>
          have hpd : poolDiffs A B f1 f2 ktc q =
              [("pool_status", DiffCell.status ("Missing in " ++ f2))] := by
            unfold poolDiffs
            rw [hA, h]
          rw [hpd]
          rfl

/-- Counterexample to claim C6 as stated: pool `p` is present only in
collection A (label `fa`).  `compare(A,B,fa,fb)` marks it `Missing in fb`;
the claim says `compare(B,A,fb,fa)` then marks it with a message saying it
is missing in A (that is, `Missing in fa`), but the code emits the
identical message `Missing in fb` in both directions: the message names
the side the pool is absent from and does not flip. -/
theorem C6_missing_direction_cex :
    compare_pool_data [("p", [("name", AttributeValue.StrV "p")])] []
      "fa" "fb" none =
      [("p", [("pool_status", DiffCell.status "Missing in fb")])] ∧
    compare_pool_data [] [("p", [("name", AttributeValue.StrV "p")])]
      "fb" "fa" none =
      [("p", [("pool_status", DiffCell.status "Missing in fb")])] ∧
    ("Missing in fb" ≠ "Missing in fa") := by
  decide

/-- Claim C6, amended: for a pool present only in A, `compare(A,B,f1,f2)`
records it with the marker `Missing in f2` (naming B's label, the side the
pool is absent from), and `compare(B,A,f2,f1)` records the same pool with
the identical marker `Missing in f2` — the message does not flip.  The set
of pools receiving a status marker is identical in both directions. -/
theorem C6_missing_direction (A B : Snapshot) (f1 f2 : String)
    (ktc1 ktc2 : Option (List String)) (p : String)
    (hA : (Dict.get? A p).isSome = true) (hB : Dict.get? B p = none) :
    Dict.get? (compare_pool_data A B f1 f2 ktc1) p =
      some [("pool_status", DiffCell.status ("Missing in " ++ f2))] ∧
    Dict.get? (compare_pool_data B A f2 f1 ktc2) p =
      some [("pool_status", DiffCell.status ("Missing in " ++ f2))] ∧
    (∀ q, hasStatusMarker (compare_pool_data A B f1 f2 ktc1) q =
          hasStatusMarker (compare_pool_data B A f2 f1 ktc2) q) := by
  refine ⟨compare_get?_absent_second A B f1 f2 ktc1 p hA hB,
    compare_get?_absent_first B A f2 f1 ktc2 p hB hA, ?_⟩
  intro q
  have hiff : (hasStatusMarker (compare_pool_data A B f1 f2 ktc1) q = true) ↔
      (hasStatusMarker (compare_pool_data B A f2 f1 ktc2) q = true) := by
    rw [hasStatusMarker_compare, hasStatusMarker_compare]
    constructor
    · rintro ⟨hmem, hor⟩
      exact ⟨(mem_allPoolNames B A q).2 (Or.symm ((mem_allPoolNames A B q).1 hmem)),
        Or.symm hor⟩
    · rintro ⟨hmem, hor⟩
      exact ⟨(mem_allPoolNames A B q).2 (Or.symm ((mem_allPoolNames B A q).1 hmem)),
        Or.symm hor⟩
  cases hx : hasStatusMarker (compare_pool_data A B f1 f2 ktc1) q with
  | true => exact (hiff.1 hx).symm
  | false =>
    cases hy : hasStatusMarker (compare_pool_data B A f2 f1 ktc2) q with
    | false => rfl
    | true =>
      rw [hiff.2 hy] at hx
      exact Bool.noConfusion hx

/-- Witness for the amended C6 at concrete inputs: the identical marker in
both directions, and equal marker sets at a probe pool name. -/
theorem C6_missing_direction_witness :
    Dict.get? (compare_pool_data [("p", [("name", AttributeValue.StrV "p")])] []
      "fa" "fb" none) "p" =
      some [("pool_status", DiffCell.status ("Missing in " ++ "fb"))] ∧
    Dict.get? (compare_pool_data [] [("p", [("name", AttributeValue.StrV "p")])]
      "fb" "fa" none) "p" =
      some [("pool_status", DiffCell.status ("Missing in " ++ "fb"))] ∧
    hasStatusMarker (compare_pool_data [("p", [("name", AttributeValue.StrV "p")])] []
      "fa" "fb" none) "p" =
    hasStatusMarker (compare_pool_data [] [("p", [("name", AttributeValue.StrV "p")])]
      "fb" "fa" none) "p" :=
  have h := C6_missing_direction [("p", [("name", AttributeValue.StrV "p")])] []
    "fa" "fb" none none "p" (by decide) (by decide)
  ⟨h.1, h.2.1, h.2.2 "p"⟩

/-! ## Claims C1 and C2 -/

/-- Claim C1 is violated by the code: parsing can raise.  On the record
`ltm pool p \x7b` + newline + `members ²`, the value token `²` satisfies
Python `str.isdigit` (its `Numeric_Type` is `Digit`), so the coercion calls
`int('²')`, which raises `ValueError` because `²` is not a decimal digit
(category `Nd`).  The same exception propagates out of the whole
parse-from-string core.  A fragment with no `ltm pool` header, by contrast,
is skipped without error. -/
theorem C1_parse_raises :
    parse_pool_record "ltm pool p \x7b\nmembers ²" =
      .error "invalid literal for int() with base 10: ²" ∧
    parse_pool_file_content "ltm pool p \x7b\nmembers ²\n\x7d\n" =
      .error "invalid literal for int() with base 10: ²" ∧
    parse_pool_record "no header here" = .ok none := by
  decide

/-- Claim C2: the four stated coercion examples hold (`42` to integer 42,
`3.14` to the float value 157/50, `1.2.3` unchanged string, `007` to
integer 7), but the universally quantified claim is violated: on the token
`²`, `value.isdigit()` is `True` yet `int('²')` raises `ValueError`, so the
coercion neither yields an integer nor leaves the token as a string — it
raises. -/
theorem C2_coercion_map :
    coerce_value "42" = .ok (.IntV 42) ∧
    coerce_value "3.14" = .ok (.FloatV (157 / 50)) ∧
    coerce_value "1.2.3" = .ok (.StrV "1.2.3") ∧
    coerce_value "007" = .ok (.IntV 7) ∧
    pyStrIsDigit "²".data = true ∧
    coerce_value "²" = .error "invalid literal for int() with base 10: ²" := by
  have hq : ratOfToken "3.14".data = 157 / 50 := by
    show (digitsToNat ("3.14".data.takeWhile Char.isDigit) : ℚ) +
      (digitsToNat (("3.14".data.dropWhile Char.isDigit).drop 1) : ℚ) /
        ((10 : ℚ) ^ (("3.14".data.dropWhile Char.isDigit).drop 1).length) = 157 / 50
    rw [show ("3.14".data.dropWhile Char.isDigit).drop 1 = ['1', '4'] from rfl,
      show "3.14".data.takeWhile Char.isDigit = ['3'] from rfl,
      show digitsToNat ['3'] = 3 from rfl,
      show digitsToNat ['1', '4'] = 14 from rfl,
      show (['1', '4'] : List Char).length = 2 from rfl]
    norm_num
  refine ⟨by decide, ?_, by decide, by decide, by decide, by decide⟩
  rw [show coerce_value "3.14" = .ok (.FloatV (ratOfToken "3.14".data)) from rfl, hq]

/-! ## Claim C7 -/

/-- Counterexample to claim C7 as stated: the filter value is the float 1.0
while the record holds the integer 1 — a type mismatch between the tagged
values — yet the pool passes the filter (Python `1 == 1.0` is `True`) and
the unchanged result is non-empty. -/
theorem C7_filter_cex :
    check_unchanged_values [("p", [("k", AttributeValue.IntV 1)])]
      [("p", [("k", AttributeValue.IntV 1)])] "a" "b"
      (some "k") (some (AttributeValue.FloatV 1)) none =
      [("p", [("k", AttributeValue.IntV 1)])] ∧
    AttributeValue.IntV 1 ≠ AttributeValue.FloatV 1 := by
  decide

/-- Claim C7, amended: `check_unchanged_values` filters only when both
`filter_key` and `filter_value` are supplied; if either is omitted it
operates on the full collections.  Filtering narrows each collection
independently to the pools whose record maps the filter key to a value
Python-equal to the filter value — a string never matches a number, but an
integer and a float of equal numeric value do match.  The result never
contains a pool absent from the filtered subset of either side. -/
theorem C7_filter_behavior (d1 d2 : Snapshot) (f1 f2 : String) (fk : String)
    (fv : AttributeValue) (ktc : Option (List String)) :
    (∀ fv0, check_unchanged_values d1 d2 f1 f2 none fv0 ktc =
      check_unchanged_core d1 d2 ktc) ∧
    (∀ fk0, check_unchanged_values d1 d2 f1 f2 fk0 none ktc =
      check_unchanged_core d1 d2 ktc) ∧
    (check_unchanged_values d1 d2 f1 f2 (some fk) (some fv) ktc =
      check_unchanged_core (filter_pools_by_condition d1 fk fv)
        (filter_pools_by_condition d2 fk fv) ktc) ∧
    (∀ e : String × PoolRecord, e ∈ filter_pools_by_condition d1 fk fv ↔
      (e ∈ d1 ∧ ∃ v, Dict.get? e.2 fk = some v ∧ pyEq v fv = true)) ∧
    (∀ p, (Dict.get? (check_unchanged_values d1 d2 f1 f2
        (some fk) (some fv) ktc) p).isSome = true →
      ((Dict.get? (filter_pools_by_condition d1 fk fv) p).isSome = true ∧
       (Dict.get? (filter_pools_by_condition d2 fk fv) p).isSome = true)) := by
  refine ⟨?_, ?_, rfl, ?_, ?_⟩
  · intro fv0
    cases fv0 <;> rfl
  · intro fk0
    cases fk0 <;> rfl
  · intro e
    refine (List.mem_filter).trans (and_congr_right fun _ => ?_)
    cases hv : Dict.get? e.2 fk with
    | none => simp
    | some v => simp
  · intro p h
    have h2 : (Dict.get? (check_unchanged_core (filter_pools_by_condition d1 fk fv)
        (filter_pools_by_condition d2 fk fv) ktc) p).isSome = true := h
    unfold check_unchanged_core at h2
    rw [get?_insertWhen] at h2
    by_cases hc : p ∈ commonPools (filter_pools_by_condition d1 fk fv)
        (filter_pools_by_condition d2 fk fv) ∧
        (!(unchangedFor (filter_pools_by_condition d1 fk fv)
          (filter_pools_by_condition d2 fk fv) ktc p).isEmpty) = true
    · obtain ⟨hk1, hk2⟩ := (mem_commonPools _ _ p).1 hc.1
      exact ⟨(Dict.get?_isSome_iff_mem_keys _ p).2 hk1, hk2⟩
    · rw [if_neg hc] at h2
      exact Bool.noConfusion h2

/-- Witness for the amended C7 at concrete inputs: a pool that appears in
the filtered unchanged result is in the filtered subset of both sides. -/
theorem C7_filter_behavior_witness :
    (Dict.get? (filter_pools_by_condition [("p", [("k", AttributeValue.IntV 1)])] "k"
      (AttributeValue.IntV 1)) "p").isSome = true ∧
    (Dict.get? (filter_pools_by_condition [("p", [("k", AttributeValue.IntV 1)])] "k"
      (AttributeValue.IntV 1)) "p").isSome = true :=
  (C7_filter_behavior [("p", [("k", AttributeValue.IntV 1)])]
    [("p", [("k", AttributeValue.IntV 1)])] "a" "b" "k"
    (AttributeValue.IntV 1) none).2.2.2.2 "p" (by decide)

/-! ## Claim C3 -/

/-- `pyEq` is transitive (numeric equality via the rationals; string
equality on strings). -/
theorem pyEq_trans (a b c : AttributeValue) (h1 : pyEq a b = true)
    (h2 : pyEq b c = true) : pyEq a c = true := by
  cases a <;> cases b <;> cases c <;> simp_all [pyEq]

/-- A line whose key is not `k` leaves the binding of `k` unchanged. -/
theorem parseLineStep_get?_no_key (init : PoolRecord) (line : List Char)
    (k : String) (pd2 : PoolRecord)
    (h : ∀ kv, lineKV line = some kv → kv.1 ≠ k)
    (hstep : parseLineStep init line = .ok pd2) :
    Dict.get? pd2 k = Dict.get? init k := by
  unfold parseLineStep at hstep
  cases hkv : lineKV line with
  | none =>
    rw [hkv] at hstep
    injection hstep with heq
    subst heq
    rfl
  | some kv =>
    rw [hkv] at hstep
    have hstep2 : applyKV init kv = .ok pd2 := hstep
    unfold applyKV at hstep2
    cases hcv : coerce_value kv.2 with
    | error e =>
      rw [hcv] at hstep2
      exact Except.noConfusion hstep2
    | ok av =>
      rw [hcv] at hstep2
      injection hstep2 with heq
      subst heq
      exact Dict.get?_insert_ne init kv.1 k av (h kv hkv)

/-- One line step preserves presence of any key. -/
theorem parseLineStep_get?_isSome (init : PoolRecord) (line : List Char)
    (k : String) (pd2 : PoolRecord)
    (hs : (Dict.get? init k).isSome = true)
    (hstep : parseLineStep init line = .ok pd2) :
    (Dict.get? pd2 k).isSome = true := by
  unfold parseLineStep at hstep
  cases hkv : lineKV line with
  | none =>
    rw [hkv] at hstep
    injection hstep with heq
    subst heq
    exact hs
  | some kv =>
    rw [hkv] at hstep
    have hstep2 : applyKV init kv = .ok pd2 := hstep
    unfold applyKV at hstep2
    cases hcv : coerce_value kv.2 with
    | error e =>
      rw [hcv] at hstep2
      exact Except.noConfusion hstep2
    | ok av =>
      rw [hcv] at hstep2
      injection hstep2 with heq
      subst heq
      exact Dict.get?_insert_isSome init kv.1 k av hs

/-- If no processed line of the record produces the key `k`, the line loop
leaves that key's binding unchanged. -/
theorem parseLinesM_get?_no_key (k : String) (pd : PoolRecord) :
    ∀ (lines : List (List Char)) (init : PoolRecord),
    (∀ line ∈ lines, ∀ kv, lineKV line = some kv → kv.1 ≠ k) →
    parseLinesM lines init = .ok pd →
    Dict.get? pd k = Dict.get? init k := by
  intro lines
  induction lines with
  | nil =>
    intro init h hok
    rw [parseLinesM] at hok
    injection hok with heq
    subst heq
    rfl
  | cons line rest ih =>
    intro init h hok
    rw [parseLinesM] at hok
    cases hstep : parseLineStep init line with
    | error e =>
      rw [hstep] at hok
      exact Except.noConfusion hok
    | ok pd2 =>
      rw [hstep] at hok
      have hok2 : parseLinesM rest pd2 = .ok pd := hok
      rw [ih pd2 (fun l hl => h l (List.mem_cons_of_mem _ hl)) hok2]
      exact parseLineStep_get?_no_key init line k pd2
        (h line (List.mem_cons_self _ _)) hstep

/-- A key present before the line loop is still present afterwards. -/
theorem parseLinesM_get?_isSome (k : String) (pd : PoolRecord) :
    ∀ (lines : List (List Char)) (init : PoolRecord),
    (Dict.get? init k).isSome = true →
    parseLinesM lines init = .ok pd →
    (Dict.get? pd k).isSome = true := by
  intro lines
  induction lines with
  | nil =>
    intro init hs hok
    rw [parseLinesM] at hok
    injection hok with heq
    subst heq
    exact hs
  | cons line rest ih =>
    intro init hs hok
    rw [parseLinesM] at hok
    cases hstep : parseLineStep init line with
    | error e =>
      rw [hstep] at hok
      exact Except.noConfusion hok
    | ok pd2 =>
      rw [hstep] at hok
      have hok2 : parseLinesM rest pd2 = .ok pd := hok
      exact ih pd2 (parseLineStep_get?_isSome init line k pd2 hs hstep) hok2

/-- Inversion of a successful `parse_pool_record`: the header matched some
name `nm`, and the line loop starting from the seeded record succeeded. -/
theorem parse_pool_record_ok_some (record : String) (pd : PoolRecord)
    (hok : parse_pool_record record = .ok (some pd)) :
    ∃ nm, findPoolName record.data = some nm ∧
      parseLinesM (splitLines record.data) [("name", .StrV nm)] = .ok pd := by
  unfold parse_pool_record at hok
  cases hf : findPoolName record.data with
  | none =>
    rw [hf] at hok
    simp at hok
  | some nm =>
    rw [hf] at hok
    have hok2 : Except.map some
        (parseLinesM (splitLines record.data) [("name", .StrV nm)]) =
        (.ok (some pd) : Except String (Option PoolRecord)) := hok
    cases hp : parseLinesM (splitLines record.data) [("name", .StrV nm)] with
    | error e =>
      rw [hp] at hok2
      simp [Except.map] at hok2
    | ok pd0 =>
      rw [hp] at hok2
      have hpd : Except.ok (some pd0) =
          (Except.ok (some pd) : Except String (Option PoolRecord)) := hok2
      injection hpd with h1
      injection h1 with h2
      subst h2
      exact ⟨nm, rfl, hp⟩

/-- The keying invariant survives one `insertByPyEq` step: every entry's
key is Python-equal to its record's `name` value. -/
theorem insertByPyEq_inv (key : AttributeValue) (pd : PoolRecord)
    (hpd : ∃ v, Dict.get? pd "name" = some v ∧ pyEq key v = true) :
    ∀ (pools : List (AttributeValue × PoolRecord)),
    (∀ e ∈ pools, ∃ v, Dict.get? e.2 "name" = some v ∧ pyEq e.1 v = true) →
    ∀ e ∈ insertByPyEq pools key pd,
      ∃ v, Dict.get? e.2 "name" = some v ∧ pyEq e.1 v = true := by
  intro pools
  induction pools with
  | nil =>
    intro _ e he
    rw [insertByPyEq] at he
    rcases List.mem_singleton.1 he with rfl
    exact hpd
  | cons a t ih =>
    intro hinv e he
    obtain ⟨ak, av⟩ := a
    rw [insertByPyEq] at he
    by_cases hq : pyEq ak key = true
    · rw [if_pos hq] at he
      rcases List.mem_cons.1 he with rfl | hm
      · obtain ⟨v, hv, hkv⟩ := hpd
        exact ⟨v, hv, pyEq_trans ak key v hq hkv⟩
      · exact hinv e (List.mem_cons_of_mem _ hm)
    · rw [if_neg hq] at he
      rcases List.mem_cons.1 he with rfl | hm
      · exact hinv (ak, av) (List.mem_cons_self _ _)
      · exact ih (fun x hx => hinv x (List.mem_cons_of_mem _ hx)) e hm

/-- The record loop preserves the keying invariant. -/
theorem parseRecordsM_keyed (out : List (AttributeValue × PoolRecord)) :
    ∀ (recs : List (List Char)) (pools : List (AttributeValue × PoolRecord)),
    (∀ e ∈ pools, ∃ v, Dict.get? e.2 "name" = some v ∧ pyEq e.1 v = true) →
    parseRecordsM recs pools = .ok out →
    ∀ e ∈ out, ∃ v, Dict.get? e.2 "name" = some v ∧ pyEq e.1 v = true := by
  intro recs
  induction recs with
  | nil =>
    intro pools hinv hok
    rw [parseRecordsM] at hok
    injection hok with heq
    subst heq
    exact hinv
  | cons r rest ih =>
    intro pools hinv hok
    rw [parseRecordsM] at hok
    by_cases hsub : hasSub "ltm pool ".data r = true
    · rw [if_pos hsub] at hok
      cases hpr : parse_pool_record (String.mk r) with
      | error e =>
        rw [hpr] at hok
        exact Except.noConfusion hok
      | ok opt =>
        cases opt with
        | none =>
          rw [hpr] at hok
          exact ih pools hinv hok
        | some pd =>
          rw [hpr] at hok
          obtain ⟨nm, -, hpl⟩ := parse_pool_record_ok_some (String.mk r) pd hpr
          have hname : (Dict.get? pd "name").isSome = true :=
            parseLinesM_get?_isSome "name" pd _ _ (by simp [Dict.get?]) hpl
          obtain ⟨v, hv⟩ := Option.isSome_iff_exists.1 hname
          have hkey : (Dict.get? pd "name").getD (.StrV "") = v := by
            rw [hv]
            rfl
          refine ih _ ?_ hok
          rw [hkey]
          exact insertByPyEq_inv v pd ⟨v, hv, pyEq_refl v⟩ pools hinv
    · rw [if_neg hsub] at hok
      exact ih pools hinv hok

/-- Counterexample to claim C3 as stated: the record's header names the
pool `p`, but the record contains the attribute line `name q`, which
overwrites the seeded `name` binding; the resulting record's `name` field
is `q`, not the header-extracted `p`, and the collection is keyed by `q`. -/
theorem C3_name_field_cex :
    parse_pool_file_content "ltm pool p \x7b\nname q\n\x7d\n" =
      .ok [(AttributeValue.StrV "q", [("name", AttributeValue.StrV "q")])] ∧
    findPoolName ("ltm pool p \x7b\nname q\n\x7d\n").data = some "p" ∧
    (AttributeValue.StrV "q" ≠ AttributeValue.StrV "p") := by
  decide

/-- Claim C3, amended: a retained record's `name` field equals the pool
name extracted from the `ltm pool <name>` header provided no processed
attribute line of the record has key `name` (such a line overwrites the
seeded binding); and the parsed collection is keyed by each record's final
`name` value (up to Python `==` on keys), not necessarily by the header
name. -/
theorem C3_name_field :
    (∀ record pd, parse_pool_record record = .ok (some pd) →
      producesKey record "name" = false →
      ∃ nm, findPoolName record.data = some nm ∧
        Dict.get? pd "name" = some (.StrV nm)) ∧
    (∀ content pools, parse_pool_file_content content = .ok pools →
      ∀ e ∈ pools, ∃ v, Dict.get? e.2 "name" = some v ∧ pyEq e.1 v = true) := by
  constructor
  · intro record pd hok hpk
    obtain ⟨nm, hf, hpl⟩ := parse_pool_record_ok_some record pd hok
    have hnk : ∀ line ∈ splitLines record.data, ∀ kv,
        lineKV line = some kv → kv.1 ≠ "name" := by
      intro line hline kv hkv heq
      unfold producesKey at hpk
      rw [List.any_eq_false] at hpk
      have h2 := hpk line hline
      rw [hkv] at h2
      apply h2
      show (kv.1 == "name") = true
      rw [heq]
      exact beq_self_eq_true "name"
    refine ⟨nm, hf, ?_⟩
    rw [parseLinesM_get?_no_key "name" pd (splitLines record.data)
      [("name", .StrV nm)] hnk hpl]
    simp [Dict.get?]
  · intro content pools hok
    exact parseRecordsM_keyed pools (splitRecords content.data) []
      (fun e he => absurd he (List.not_mem_nil e)) hok

/-- Witness for the amended C3 at a concrete record with no `name`
attribute line: the record's name field is the header name `p1`, and the
collection entry is keyed by it. -/
theorem C3_name_field_witness :
    (∃ nm, findPoolName ("ltm pool p1 \x7b\nstatus.availability-state available").data =
        some nm ∧
      Dict.get? [("name", AttributeValue.StrV "p1"),
        ("status.availability-state", AttributeValue.StrV "available")] "name" =
        some (.StrV nm)) ∧
    (∃ v, Dict.get? [("name", AttributeValue.StrV "p1"),
        ("status.availability-state", AttributeValue.StrV "available")] "name" = some v ∧
      pyEq (AttributeValue.StrV "p1") v = true) :=
  ⟨C3_name_field.1 "ltm pool p1 \x7b\nstatus.availability-state available"
      [("name", AttributeValue.StrV "p1"),
       ("status.availability-state", AttributeValue.StrV "available")]
      (by decide) (by decide),
   C3_name_field.2 "ltm pool p1 \x7b\nstatus.availability-state available\n\x7d\n"
      [(AttributeValue.StrV "p1",
        [("name", AttributeValue.StrV "p1"),
         ("status.availability-state", AttributeValue.StrV "available")])]
      (by decide)
      (AttributeValue.StrV "p1",
        [("name", AttributeValue.StrV "p1"),
         ("status.availability-state", AttributeValue.StrV "available")])
      (by decide)⟩
